import Mathlib

/-!
Shallow embedding of the connection registry, room fan-out engine and
websocket event router of the chat backend (Go sources under
internal/handlers and internal/services), together with proofs of the
specified properties.

Go maps are embedded as association lists: insertion removes any previous
binding of the key and conses the new one, deletion removes every binding
of the key, and lookup returns the first binding.  All registry states the
program can reach have distinct keys, and where a proof needs that fact it
is derived from the operation sequence.
-/

set_option autoImplicit false

namespace ChatBackend

universe u v

/-- Lookup in an association list: first binding of the key, mirroring a
Go map read `v, ok := m[k]`. -/
def alookup {κ : Type u} {α : Type v} [DecidableEq κ] : List (κ × α) → κ → Option α
  | [], _ => none
  | (k, v) :: rest, k' => if k = k' then some v else alookup rest k'

/-- Deletion from an association list: removes every binding of the key,
mirroring Go `delete(m, k)`. -/
def aerase {κ : Type u} {α : Type v} [DecidableEq κ] : List (κ × α) → κ → List (κ × α)
  | [], _ => []
  | (k, v) :: rest, k' => if k = k' then aerase rest k' else (k, v) :: aerase rest k'

/-- Insertion into an association list, mirroring Go `m[k] = v`. -/
def ainsert {κ : Type u} {α : Type v} [DecidableEq κ] (l : List (κ × α)) (k : κ) (v : α) :
    List (κ × α) :=
  (k, v) :: aerase l k

/-- Keys of the association list are pairwise distinct; every state built
by the registry operations satisfies this. -/
def keysNodup {κ : Type u} {α : Type v} (l : List (κ × α)) : Prop :=
  (l.map Prod.fst).Nodup

/-- Metadata stored per live connection (rooms.go, type ConnMeta): owning
user id, display name, and the transport handle.  The handle type is a
parameter; the Go code stores a websocket connection pointer. -/
structure ConnMeta (H : Type u) where
  userID : Int
  username : String
  conn : H
deriving DecidableEq, Repr

/-- The in-memory registry (rooms.go, type RoomManager): room name to a
map from connection id to handle, plus connection id to metadata.  The Go
mutex only serializes access and has no sequential semantics. -/
structure RoomManager (H : Type u) where
  rooms : List (String × List (String × H))
  connMeta : List (String × ConnMeta H)
deriving DecidableEq, Repr

/-- Initial value of the package-level Manager variable: both maps empty. -/
def initialManager (H : Type u) : RoomManager H := ⟨[], []⟩

/-- Join (rooms.go lines 30-40): create the room map on first use, bind
the connection handle under the room, and store the metadata. -/
def RoomManager.Join {H : Type u} (m : RoomManager H) (room : String) (connID : String)
    (c : H) (userID : Int) (username : String) : RoomManager H :=
  let conns := (alookup m.rooms room).getD []
  { rooms := ainsert m.rooms room (ainsert conns connID c),
    connMeta := ainsert m.connMeta connID ⟨userID, username, c⟩ }

/-- Leave (rooms.go lines 42-52): if the room exists, remove the
connection from it and drop the room entry when its set becomes empty. -/
def RoomManager.Leave {H : Type u} (m : RoomManager H) (room : String) (connID : String) :
    RoomManager H :=
  match alookup m.rooms room with
  | none => m
  | some conns =>
    let conns' := aerase conns connID
    if conns'.isEmpty then { m with rooms := aerase m.rooms room }
    else { m with rooms := ainsert m.rooms room conns' }

/-- Broadcast (rooms.go lines 54-73): write the payload to every
connection of the room except the excluded id; a failed write is logged
and the loop continues.  The transport write utils.SendJSON is modelled by
the `send` parameter returning success or failure; the result lists each
attempted recipient with the outcome of its own write. -/
def RoomManager.Broadcast {H : Type u} {P : Type v} (m : RoomManager H) (send : H → P → Bool)
    (room : String) (payload : P) (excludeConnID : String) : List (String × Bool) :=
  match alookup m.rooms room with
  | none => []
  | some conns =>
    conns.filterMap fun p =>
      if p.1 = excludeConnID then none else some (p.1, send p.2 payload)

/-- IsUserOnline (rooms.go lines 89-99): scan the metadata map for any
connection of the user. -/
def RoomManager.IsUserOnline {H : Type u} (m : RoomManager H) (userID : Int) : Bool :=
  m.connMeta.any fun p => decide (p.2.userID = userID)

/-- RegisterConnection (rooms.go lines 103-120): record whether the user
already had a connection, store the metadata, and report true when the
user just came online. -/
def RoomManager.RegisterConnection {H : Type u} (m : RoomManager H) (connID : String)
    (userID : Int) (username : String) (conn : H) : Bool × RoomManager H :=
  let wasOnline := m.connMeta.any fun p => decide (p.2.userID = userID)
  (!wasOnline, { m with connMeta := ainsert m.connMeta connID ⟨userID, username, conn⟩ })

/-- Helper of UnregisterConnection (rooms.go lines 136-143): remove the
connection from every room holding it, dropping rooms whose set becomes
empty; rooms not holding the connection are kept as they are. -/
def removeConnFromRooms {H : Type u} (connID : String) :
    List (String × List (String × H)) → List (String × List (String × H))
  | [] => []
  | rc :: rest =>
    let tail := removeConnFromRooms connID rest
    if (alookup rc.2 connID).isSome then
      let conns := aerase rc.2 connID
      if conns.isEmpty then tail else (rc.1, conns) :: tail
    else rc :: tail

/-- UnregisterConnection (rooms.go lines 124-156): unknown ids are a no-op
returning false; otherwise remove the connection from every room and from
the metadata map, and report true when no other connection of the same
user remains. -/
def RoomManager.UnregisterConnection {H : Type u} (m : RoomManager H) (connID : String) :
    Bool × RoomManager H :=
  match alookup m.connMeta connID with
  | none => (false, m)
  | some meta =>
    let rooms' := removeConnFromRooms connID m.rooms
    let meta' := aerase m.connMeta connID
    let stillOnline := meta'.any fun p => decide (p.2.userID = meta.userID)
    (!stillOnline, { rooms := rooms', connMeta := meta' })

/-- IsUserInRoom (rooms.go lines 213-228): true when some connection of
the room belongs to the user according to the metadata map. -/
def RoomManager.IsUserInRoom {H : Type u} (m : RoomManager H) (userID : Int) (roomID : String) :
    Bool :=
  match alookup m.rooms roomID with
  | none => false
  | some conns =>
    conns.any fun p =>
      match alookup m.connMeta p.1 with
      | some meta => decide (meta.userID = userID)
      | none => false

/-- CountUserConnections (rooms.go lines 256-266): number of metadata
entries belonging to the user. -/
def RoomManager.CountUserConnections {H : Type u} (m : RoomManager H) (userID : Int) : Nat :=
  m.connMeta.countP fun p => decide (p.2.userID = userID)

/-- Member list of a room: the inner map when present, else empty. -/
def RoomManager.roomMembers {H : Type u} (m : RoomManager H) (room : String) :
    List (String × H) :=
  (alookup m.rooms room).getD []

/-- Room invariant kept by the event router for one connection: when the
connection has no current room it is in no room member set, and otherwise
only in its current room. -/
def routerRoomInv {H : Type u} (m : RoomManager H) (connID : String) (cur : String) : Prop :=
  ∀ rc ∈ m.rooms, (alookup rc.2 connID).isSome = true → cur ≠ "" ∧ rc.1 = cur

/-- One registry call of the presence protocol, for quantifying over call
sequences on the package-level Manager. -/
inductive RegOp where
  | register (connID : String) (userID : Int) (username : String) (conn : Nat)
  | unregister (connID : String)
deriving DecidableEq, Repr

/-- State reached after one registry call. -/
def applyRegOp (m : RoomManager Nat) : RegOp → RoomManager Nat
  | .register connID userID username conn =>
    (m.RegisterConnection connID userID username conn).2
  | .unregister connID => (m.UnregisterConnection connID).2

/-- State of the Manager after a sequence of register/unregister calls
starting from the initial empty registry. -/
def applyRegOps (ops : List RegOp) : RoomManager Nat :=
  ops.foldl applyRegOp (initialManager Nat)

/-- Inbound websocket frame after JSON decoding (models.WSMessage, the
fields the router reads). -/
structure WSMessage where
  event : String
  id : Int
  room : String
  text : String
  voice : String
  timestamp : Int
  username : String
  replyToID : Int
deriving DecidableEq, Repr

/-- Identity override performed by HandleMessage (message.go lines 52-54)
on every decoded frame before dispatch: the username is replaced by the
authenticated connection username and the timestamp by the server clock at
receipt. -/
def overrideAuthFields (serverNow : Int) (authUsername : String) (msg : WSMessage) : WSMessage :=
  { msg with username := authUsername, timestamp := serverNow }

/-- Outbound events produced by the router handlers, with the fields the
Go code puts into the corresponding structs and map literals. -/
inductive OutEvent where
  | validationError (errorText : String)
  | chatEvent (id : Int) (room : String) (text : String) (voice : String)
      (username : String) (timestamp : Int) (hasSeen : Bool)
  | leaveEvent (room : String) (username : String) (timestamp : Int)
deriving DecidableEq, Repr

/-- Row returned by the database for a saved message (SaveMessage in
chat_service.go assigns id, creation time and the stored seen flag). -/
structure SavedMsg where
  id : Int
  createdAt : Int
  hasSeen : Bool
deriving DecidableEq, Repr

/-- Data handed to persistence by handleChat (models.Message as filled at
message.go lines 246-253). -/
structure PersistReq where
  room : String
  userID : Int
  username : String
  content : Option String
  voice : Option String
  replyToID : Int
deriving DecidableEq, Repr

/-- Observable effects of one handleChat call: events written privately to
the sender socket, the persistence request that succeeded, the room
broadcast issued (room, excluded connection id, payload), and the
arguments of the detached notifyNewMessage task. -/
structure ChatOutcome where
  senderEvents : List OutEvent
  persisted : Option PersistReq
  broadcast : Option (String × String × OutEvent)
  notifyArgs : Option (String × Int × String × String × Int)
deriving DecidableEq, Repr

/-- handleChat (message.go lines 219-293).  Persistence is the `persist`
parameter: none models a SaveMessage error, in which case the handler logs
and returns without any reply or broadcast.  The reply-to resolution only
fills a payload field and is carried by the replyToID it starts from. -/
def handleChat (persist : PersistReq → Option SavedMsg) (currentRoom : String)
    (userID : Int) (username : String) (msg : WSMessage) : ChatOutcome :=
  if currentRoom = "" then ⟨[], none, none, none⟩
  else
    let content : Option String := if msg.text ≠ "" then some msg.text else none
    let voice : Option String := if msg.voice ≠ "" then some msg.voice else none
    if content = none ∧ voice = none then
      ⟨[.validationError "message must have either text or voice"], none, none, none⟩
    else
      let req : PersistReq := ⟨currentRoom, userID, username, content, voice, msg.replyToID⟩
      match persist req with
      | none => ⟨[], none, none, none⟩
      | some saved =>
        ⟨[], some req,
          some (currentRoom, "",
            .chatEvent saved.id currentRoom msg.text msg.voice username saved.createdAt
              saved.hasSeen),
          some (currentRoom, userID, username, msg.text, saved.createdAt)⟩

/-- Replies handleSeen writes privately to its own socket. -/
inductive SeenReply where
  | seenFailed (room : String) (updated : Int)
  | seenSuccessful (room : String) (timestamp : Int) (username : String)
deriving DecidableEq, Repr

/-- Observable effects of one handleSeen call: the MarkMessagesSeen call
issued (room, viewer id, threshold in milliseconds), the private reply,
and the messages_seen broadcast (room, seen_by, count). -/
structure SeenOutcome where
  markCall : Option (String × Int × Int)
  senderReply : Option SeenReply
  broadcastSeen : Option (String × Int × Int)
deriving DecidableEq, Repr

/-- handleSeen (message.go lines 72-126): resolve the room from the
current room or the frame, drop a zero timestamp, upscale a value below
10^12 from seconds to milliseconds, then delegate to persistence; reply
seen_failed on error, else seen_successful plus a messages_seen broadcast
carrying the updated count.  Persistence is the `markSeen` parameter. -/
def handleSeen (markSeen : String → Int → Int → Option Int) (userID : Int)
    (username : String) (currentRoom : String) (msg : WSMessage) : SeenOutcome :=
  if currentRoom = "" ∧ msg.room = "" then ⟨none, none, none⟩
  else
    let roomID := if currentRoom = "" then msg.room else currentRoom
    if msg.timestamp = 0 then ⟨none, none, none⟩
    else
      let ts := if msg.timestamp < 1000000000000 then msg.timestamp * 1000 else msg.timestamp
      match markSeen roomID userID ts with
      | none => ⟨some (roomID, userID, ts), some (.seenFailed roomID 0), none⟩
      | some updated =>
        ⟨some (roomID, userID, ts),
          some (.seenSuccessful roomID msg.timestamp username),
          some (roomID, userID, updated)⟩

/-- handleLeave (message.go lines 204-217): when a room is current, leave
it in the registry, broadcast a leave event excluding the leaving
connection, and clear the current room; otherwise do nothing.  Returns the
new registry, the new current room, and the broadcast issued (room,
excluded connection id, payload). -/
def handleLeave {H : Type u} (m : RoomManager H) (currentRoom : String) (connID : String)
    (username : String) (now : Int) :
    RoomManager H × String × Option (String × String × OutEvent) :=
  if currentRoom = "" then (m, currentRoom, none)
  else
    (m.Leave currentRoom connID, "",
      some (currentRoom, connID, .leaveEvent currentRoom username now))

/-- Registry effect of handleJoin (message.go lines 128-146): an empty
target room is ignored; otherwise the previous current room, when any, is
left first, then the target room is joined and becomes current.  The
acknowledgment, join broadcast and history push do not touch the registry
and are omitted here. -/
def handleJoinRegistry {H : Type u} (m : RoomManager H) (currentRoom : String)
    (msgRoom : String) (connID : String) (c : H) (userID : Int) (username : String) :
    RoomManager H × String :=
  if msgRoom = "" then (m, currentRoom)
  else
    let m1 := if currentRoom ≠ "" then m.Leave currentRoom connID else m
    (m1.Join msgRoom connID c userID username, msgRoom)

/-- JSON scalar used in map-literal payloads. -/
inductive JVal where
  | str (s : String)
  | int (n : Int)
deriving DecidableEq, Repr

/-- Payload built by notifyNewMessage (message.go lines 308-315) for a
text message: it carries the text body and no type field. -/
def newMessageNotification (roomID : String) (senderID : Int) (senderUsername : String)
    (messageText : String) (timestamp : Int) : List (String × JVal) :=
  [("event", .str "new_message"), ("room", .str roomID), ("sender_id", .int senderID),
   ("sender_username", .str senderUsername), ("text", .str messageText),
   ("timestamp", .int timestamp)]

/-- Payload built by notifyNewVoiceMessage (voice.go lines 269-276) for a
voice message: it carries a type field and no body. -/
def newVoiceMessageNotification (roomID : String) (senderID : Int) (senderUsername : String)
    (timestamp : Int) : List (String × JVal) :=
  [("event", .str "new_message"), ("room", .str roomID), ("sender_id", .int senderID),
   ("sender_username", .str senderUsername), ("type", .str "voice"),
   ("timestamp", .int timestamp)]

/-- notifyNewMessage (message.go lines 296-338): participants come from
persistence (none models a lookup error, after which nothing is sent);
each participant other than the sender who is online and not currently in
the room is sent the hint through SendToUser.  The result pairs each
notified user id with the payload sent to all of that user's sessions. -/
def notifyNewMessage {H : Type u} (m : RoomManager H) (participants : Option (List Int))
    (roomID : String) (senderID : Int) (senderUsername : String) (messageText : String)
    (timestamp : Int) : List (Int × List (String × JVal)) :=
  match participants with
  | none => []
  | some ps =>
    (ps.filter fun pid =>
        decide (pid ≠ senderID) && m.IsUserOnline pid && !(m.IsUserInRoom pid roomID)).map
      fun pid => (pid, newMessageNotification roomID senderID senderUsername messageText timestamp)

/-- notifyNewVoiceMessage (voice.go lines 259-290): same recipient rule as
the text hint, with the voice payload. -/
def notifyNewVoiceMessage {H : Type u} (m : RoomManager H) (participants : Option (List Int))
    (roomID : String) (senderID : Int) (senderUsername : String) (timestamp : Int) :
    List (Int × List (String × JVal)) :=
  match participants with
  | none => []
  | some ps =>
    (ps.filter fun pid =>
        decide (pid ≠ senderID) && m.IsUserOnline pid && !(m.IsUserInRoom pid roomID)).map
      fun pid => (pid, newVoiceMessageNotification roomID senderID senderUsername timestamp)

/-- Row of the messages table as seen by MarkMessagesSeen, with the
creation time in unix milliseconds. -/
structure StoredMessage where
  id : Int
  room : String
  userID : Int
  hasSeen : Bool
  createdAt : Int
deriving DecidableEq, Repr

/-- Row condition of the UPDATE in MarkMessagesSeen (chat_service.go
lines 147-154): same room, another author, created at or before the
threshold, and not yet seen. -/
def seenUpdateHits (room : String) (viewerID : Int) (seenBefore : Int)
    (msg : StoredMessage) : Bool :=
  decide (msg.room = room) && decide (msg.userID ≠ viewerID) &&
    decide (msg.createdAt ≤ seenBefore) && !msg.hasSeen

/-- MarkMessagesSeen (chat_service.go lines 147-154): set has_seen on
every row the UPDATE condition hits and return the new table together with
the number of rows affected. -/
def MarkMessagesSeen (db : List StoredMessage) (room : String) (viewerID : Int)
    (seenBefore : Int) : List StoredMessage × Nat :=
  (db.map fun msg =>
      if seenUpdateHits room viewerID seenBefore msg then { msg with hasSeen := true } else msg,
    db.countP (seenUpdateHits room viewerID seenBefore))

@[simp] theorem alookup_nil {κ : Type u} {α : Type v} [DecidableEq κ] (k : κ) :
    alookup ([] : List (κ × α)) k = none := rfl

@[simp] theorem alookup_cons {κ : Type u} {α : Type v} [DecidableEq κ]
    (k k' : κ) (v : α) (rest : List (κ × α)) :
    alookup ((k, v) :: rest) k' = if k = k' then some v else alookup rest k' := rfl

@[simp] theorem aerase_nil {κ : Type u} {α : Type v} [DecidableEq κ] (k : κ) :
    aerase ([] : List (κ × α)) k = [] := rfl

theorem aerase_cons {κ : Type u} {α : Type v} [DecidableEq κ]
    (k k' : κ) (v : α) (rest : List (κ × α)) :
    aerase ((k, v) :: rest) k' =
      if k = k' then aerase rest k' else (k, v) :: aerase rest k' := rfl

theorem alookup_aerase_self {κ : Type u} {α : Type v} [DecidableEq κ]
    (l : List (κ × α)) (k : κ) : alookup (aerase l k) k = none := by
  induction l with
  | nil => rfl
  | cons p rest ih =>
    obtain ⟨k0, v0⟩ := p
    by_cases h : k0 = k <;> simp [aerase_cons, h, ih]

theorem alookup_aerase_ne {κ : Type u} {α : Type v} [DecidableEq κ]
    (l : List (κ × α)) (k k' : κ) (h : k' ≠ k) :
    alookup (aerase l k) k' = alookup l k' := by
  induction l with
  | nil => rfl
  | cons p rest ih =>
    obtain ⟨k0, v0⟩ := p
    by_cases h0 : k0 = k
    · subst h0
      rw [aerase_cons, if_pos rfl, alookup_cons, if_neg (Ne.symm h), ih]
    · rw [aerase_cons, if_neg h0, alookup_cons, alookup_cons]
      by_cases h1 : k0 = k'
      · rw [if_pos h1, if_pos h1]
      · rw [if_neg h1, if_neg h1, ih]

@[simp] theorem alookup_ainsert_self {κ : Type u} {α : Type v} [DecidableEq κ]
    (l : List (κ × α)) (k : κ) (v : α) : alookup (ainsert l k v) k = some v := by
  simp [ainsert]

theorem alookup_ainsert_ne {κ : Type u} {α : Type v} [DecidableEq κ]
    (l : List (κ × α)) (k k' : κ) (v : α) (h : k' ≠ k) :
    alookup (ainsert l k v) k' = alookup l k' := by
  rw [ainsert, alookup_cons, if_neg (Ne.symm h), alookup_aerase_ne l k k' h]

theorem mem_aerase {κ : Type u} {α : Type v} [DecidableEq κ]
    (l : List (κ × α)) (k : κ) (p : κ × α) :
    p ∈ aerase l k ↔ p ∈ l ∧ p.1 ≠ k := by
  induction l with
  | nil => simp
  | cons q rest ih =>
    obtain ⟨k0, v0⟩ := q
    by_cases h : k0 = k
    · rw [aerase_cons, if_pos h, ih]
      constructor
      · rintro ⟨hp, hne⟩; exact ⟨List.mem_cons_of_mem _ hp, hne⟩
      · rintro ⟨hp, hne⟩
        rcases List.mem_cons.1 hp with hp | hp
        · exact absurd (by rw [hp, h]) hne
        · exact ⟨hp, hne⟩
    · rw [aerase_cons, if_neg h]
      constructor
      · intro hp
        rcases List.mem_cons.1 hp with hp | hp
        · exact ⟨List.mem_cons.2 (Or.inl hp), by rw [hp]; exact h⟩
        · rcases ih.1 hp with ⟨hmem, hne⟩
          exact ⟨List.mem_cons.2 (Or.inr hmem), hne⟩
      · rintro ⟨hp, hne⟩
        rcases List.mem_cons.1 hp with hp | hp
        · exact List.mem_cons.2 (Or.inl hp)
        · exact List.mem_cons.2 (Or.inr (ih.2 ⟨hp, hne⟩))

theorem aerase_of_not_mem_keys {κ : Type u} {α : Type v} [DecidableEq κ]
    (l : List (κ × α)) (k : κ) (h : k ∉ l.map Prod.fst) : aerase l k = l := by
  induction l with
  | nil => rfl
  | cons p rest ih =>
    obtain ⟨k0, v0⟩ := p
    simp only [List.map_cons, List.mem_cons] at h
    push_neg at h
    rw [aerase_cons, if_neg (Ne.symm h.1), ih h.2]

theorem keysNodup_aerase {κ : Type u} {α : Type v} [DecidableEq κ]
    (l : List (κ × α)) (k : κ) (h : keysNodup l) : keysNodup (aerase l k) := by
  induction l with
  | nil => exact h
  | cons p rest ih =>
    obtain ⟨k0, v0⟩ := p
    simp only [keysNodup, List.map_cons, List.nodup_cons] at h
    by_cases h0 : k0 = k
    · rw [aerase_cons, if_pos h0]; exact ih h.2
    · rw [aerase_cons, if_neg h0]
      refine List.Nodup.cons ?_ ((ih h.2 : keysNodup _))
      intro hmem
      rcases List.mem_map.1 hmem with ⟨q, hq, hfst⟩
      exact h.1 (List.mem_map.2 ⟨q, (mem_aerase rest k q).1 hq |>.1, hfst⟩)

theorem keys_aerase_subset {κ : Type u} {α : Type v} [DecidableEq κ]
    (l : List (κ × α)) (k k' : κ) (h : k' ∈ (aerase l k).map Prod.fst) :
    k' ∈ l.map Prod.fst := by
  rcases List.mem_map.1 h with ⟨q, hq, hfst⟩
  exact List.mem_map.2 ⟨q, (mem_aerase l k q).1 hq |>.1, hfst⟩

theorem keysNodup_ainsert {κ : Type u} {α : Type v} [DecidableEq κ]
    (l : List (κ × α)) (k : κ) (v : α) (h : keysNodup l) : keysNodup (ainsert l k v) := by
  refine List.Nodup.cons ?_ (keysNodup_aerase l k h)
  intro hmem
  rcases List.mem_map.1 hmem with ⟨q, hq, hfst⟩
  have := (mem_aerase l k q).1 hq
  exact this.2 hfst

theorem alookup_isSome_of_mem {κ : Type u} {α : Type v} [DecidableEq κ]
    (l : List (κ × α)) (p : κ × α) (h : p ∈ l) : (alookup l p.1).isSome = true := by
  induction l with
  | nil => cases h
  | cons q rest ih =>
    obtain ⟨k0, v0⟩ := q
    rcases List.mem_cons.1 h with h | h
    · rw [alookup_cons, if_pos (by rw [h])]; rfl
    · rw [alookup_cons]
      by_cases h0 : k0 = p.1
      · rw [if_pos h0]; rfl
      · rw [if_neg h0]; exact ih h

/-- Claim C9: processing a leave event twice in a row is idempotent: the
second call, arriving with no current room, leaves the registry untouched
and issues no second leave broadcast. -/
theorem leave_twice_second_is_noop {H : Type u} (m : RoomManager H)
    (cur connID username : String) (now now2 : Int) :
    (handleLeave (handleLeave m cur connID username now).1
        (handleLeave m cur connID username now).2.1 connID username now2).1 =
      (handleLeave m cur connID username now).1 ∧
    (handleLeave (handleLeave m cur connID username now).1
        (handleLeave m cur connID username now).2.1 connID username now2).2.1 =
      (handleLeave m cur connID username now).2.1 ∧
    (handleLeave (handleLeave m cur connID username now).1
        (handleLeave m cur connID username now).2.1 connID username now2).2.2 = none := by
  by_cases h : cur = "" <;> simp [handleLeave, h]

/-- Claim C5: a chat event with empty text and empty voice, sent while a
room is current, produces exactly one private validation error to the
sender, persists nothing, broadcasts nothing, and starts no notify
task. -/
theorem chat_both_empty_validation_error (persist : PersistReq → Option SavedMsg)
    (currentRoom : String) (userID : Int) (username : String) (msg : WSMessage)
    (hroom : currentRoom ≠ "") (htext : msg.text = "") (hvoice : msg.voice = "") :
    handleChat persist currentRoom userID username msg =
      ⟨[.validationError "message must have either text or voice"], none, none, none⟩ := by
  simp [handleChat, hroom, htext, hvoice]

/-- Witness of chat_both_empty_validation_error at a concrete frame. -/
theorem chat_both_empty_validation_error_witness :
    handleChat (fun _ => none) "r1" 1 "alice" ⟨"chat", 0, "", "", "", 0, "alice", 0⟩ =
      ⟨[.validationError "message must have either text or voice"], none, none, none⟩ :=
  chat_both_empty_validation_error (fun _ => none) "r1" 1 "alice" _ (by decide) rfl rfl

/-- Claim C10: the router overwrites the client username with the
authenticated one and the client timestamp with the server clock before
dispatch, so two inbound frames differing only in their username field are
routed identically, in particular through the chat and seen handlers. -/
theorem inbound_username_cannot_impersonate (now : Int) (authUsername : String)
    (m1 m2 : WSMessage)
    (h : m1.event = m2.event ∧ m1.id = m2.id ∧ m1.room = m2.room ∧ m1.text = m2.text ∧
      m1.voice = m2.voice ∧ m1.timestamp = m2.timestamp ∧ m1.replyToID = m2.replyToID) :
    overrideAuthFields now authUsername m1 = overrideAuthFields now authUsername m2 ∧
    (overrideAuthFields now authUsername m1).username = authUsername ∧
    (overrideAuthFields now authUsername m1).timestamp = now ∧
    (∀ persist currentRoom userID,
      handleChat persist currentRoom userID authUsername (overrideAuthFields now authUsername m1) =
        handleChat persist currentRoom userID authUsername
          (overrideAuthFields now authUsername m2)) ∧
    (∀ markSeen userID currentRoom,
      handleSeen markSeen userID authUsername currentRoom
          (overrideAuthFields now authUsername m1) =
        handleSeen markSeen userID authUsername currentRoom
          (overrideAuthFields now authUsername m2)) := by
  obtain ⟨h1, h2, h3, h4, h5, h6, h7⟩ := h
  have heq : overrideAuthFields now authUsername m1 = overrideAuthFields now authUsername m2 := by
    cases m1; cases m2
    simp_all [overrideAuthFields]
  exact ⟨heq, rfl, rfl, fun persist currentRoom userID => by rw [heq],
    fun markSeen userID currentRoom => by rw [heq]⟩

/-- Witness of inbound_username_cannot_impersonate: two frames differing
only in the forged username field are routed to the same event. -/
theorem inbound_username_cannot_impersonate_witness :
    overrideAuthFields 5 "alice" ⟨"chat", 0, "r", "hi", "", 9, "mallory", 0⟩ =
      overrideAuthFields 5 "alice" ⟨"chat", 0, "r", "hi", "", 9, "bob", 0⟩ :=
  (inbound_username_cannot_impersonate 5 "alice" _ _ (by decide)).1

/-- Claim C8: joining a previously absent room and immediately leaving it
leaves no entry for the room; in general Leave removes the session from
the room's set, drops the entry exactly when the set becomes empty, and
touches no other room. -/
theorem leave_drops_empty_room {H : Type u} (m : RoomManager H) (room connID : String)
    (c : H) (userID : Int) (username : String) :
    (alookup m.rooms room = none →
      alookup ((m.Join room connID c userID username).Leave room connID).rooms room = none) ∧
    (∀ conns, alookup m.rooms room = some conns →
      alookup (m.Leave room connID).rooms room =
        (if (aerase conns connID).isEmpty then none else some (aerase conns connID)) ∧
      (∀ r', r' ≠ room → alookup (m.Leave room connID).rooms r' = alookup m.rooms r')) := by
  constructor
  · intro h
    have hmem : alookup (m.Join room connID c userID username).rooms room =
        some (ainsert [] connID c) := by
      simp [RoomManager.Join, h]
    simp [RoomManager.Leave, hmem, ainsert, aerase_cons, alookup_aerase_self]
  · intro conns h
    by_cases he : (aerase conns connID).isEmpty
    · constructor
      · simp [RoomManager.Leave, h, he, alookup_aerase_self]
      · intro r' hr'
        simp [RoomManager.Leave, h, he, alookup_aerase_ne _ _ _ hr']
    · constructor
      · simp [RoomManager.Leave, h, he]
      · intro r' hr'
        simp [RoomManager.Leave, h, he, alookup_ainsert_ne _ _ _ _ hr']

/-- Witness of leave_drops_empty_room: a fresh room joined then left on
the empty registry leaves no entry. -/
theorem leave_drops_empty_room_witness :
    alookup (((initialManager Nat).Join "r" "s" 0 1 "u").Leave "r" "s").rooms "r" = none :=
  (leave_drops_empty_room (initialManager Nat) "r" "s" 0 1 "u").1 rfl

theorem removeConnFromRooms_clears {H : Type u} (connID : String)
    (rooms : List (String × List (String × H))) :
    ∀ rc ∈ removeConnFromRooms connID rooms, alookup rc.2 connID = none := by
  induction rooms with
  | nil => intro rc h; cases h
  | cons q rest ih =>
    intro rc hrc
    by_cases hq : (alookup q.2 connID).isSome
    · by_cases hempty : (aerase q.2 connID).isEmpty
      · rw [removeConnFromRooms] at hrc
        simp only [hq, hempty, if_true] at hrc
        exact ih rc hrc
      · rw [removeConnFromRooms] at hrc
        simp only [hq, hempty, if_true, if_false] at hrc
        rcases List.mem_cons.1 hrc with hrc | hrc
        · rw [hrc]; exact alookup_aerase_self q.2 connID
        · exact ih rc hrc
    · rw [removeConnFromRooms] at hrc
      simp only [hq, if_false] at hrc
      rcases List.mem_cons.1 hrc with hrc | hrc
      · rw [hrc]; exact Option.not_isSome_iff_eq_none.1 (by rw [← hrc] at hq ⊢; exact hq)
      · exact ih rc hrc

/-- Claim C7: unregistering an unknown session id returns false and leaves
the registry unchanged; unregistering a known one removes exactly that
session from the metadata map, removes it from every room, and returns
true precisely when no session of the same user remains. -/
theorem unregister_unknown_noop_known_removes {H : Type u} (m : RoomManager H)
    (connID : String) :
    (alookup m.connMeta connID = none → m.UnregisterConnection connID = (false, m)) ∧
    (∀ meta, alookup m.connMeta connID = some meta →
      alookup (m.UnregisterConnection connID).2.connMeta connID = none ∧
      (∀ other, other ≠ connID →
        alookup (m.UnregisterConnection connID).2.connMeta other = alookup m.connMeta other) ∧
      (∀ rc ∈ (m.UnregisterConnection connID).2.rooms, alookup rc.2 connID = none) ∧
      ((m.UnregisterConnection connID).1 = true ↔
        ∀ p ∈ (m.UnregisterConnection connID).2.connMeta, p.2.userID ≠ meta.userID)) := by
  constructor
  · intro h
    simp [RoomManager.UnregisterConnection, h]
  · intro meta h
    refine ⟨?_, ?_, ?_, ?_⟩
    · simp [RoomManager.UnregisterConnection, h, alookup_aerase_self]
    · intro other hother
      simp [RoomManager.UnregisterConnection, h, alookup_aerase_ne _ _ _ hother]
    · intro rc hrc
      refine removeConnFromRooms_clears connID m.rooms rc ?_
      simpa [RoomManager.UnregisterConnection, h] using hrc
    · simp only [RoomManager.UnregisterConnection, h]
      rw [Bool.not_eq_true']
      rw [List.any_eq_false]
      constructor
      · intro hall p hp
        have := hall p hp
        simpa using this
      · intro hall p hp
        simpa using hall p hp

/-- Witness of unregister_unknown_noop_known_removes: on a registry with
two sessions of user 1, removing one is not the last and removing an
unknown id is a no-op. -/
theorem unregister_unknown_noop_known_removes_witness :
    (RoomManager.UnregisterConnection
        (⟨[], [("a", ⟨1, "u", 0⟩), ("b", ⟨1, "u", 1⟩)]⟩ : RoomManager Nat) "z" =
      (false, ⟨[], [("a", ⟨1, "u", 0⟩), ("b", ⟨1, "u", 1⟩)]⟩)) ∧
    alookup (RoomManager.UnregisterConnection
        (⟨[], [("a", ⟨1, "u", 0⟩), ("b", ⟨1, "u", 1⟩)]⟩ : RoomManager Nat) "a").2.connMeta "a" =
      none :=
  ⟨(unregister_unknown_noop_known_removes
      (⟨[], [("a", ⟨1, "u", 0⟩), ("b", ⟨1, "u", 1⟩)]⟩ : RoomManager Nat) "z").1 rfl,
    ((unregister_unknown_noop_known_removes
      (⟨[], [("a", ⟨1, "u", 0⟩), ("b", ⟨1, "u", 1⟩)]⟩ : RoomManager Nat) "a").2
      ⟨1, "u", 0⟩ rfl).1⟩

/-- Claim C2: Broadcast attempts a write to every member of the room
except the excluded session; each attempt's outcome is the outcome of its
own handle's write only, so one failing recipient cannot prevent delivery
to the others, and no failure escapes the call. -/
theorem broadcast_best_effort_delivery {H : Type u} {P : Type v} (m : RoomManager H)
    (send : H → P → Bool) (room : String) (payload : P) (excludeConnID : String) :
    (∀ p ∈ m.roomMembers room, p.1 ≠ excludeConnID →
      (p.1, send p.2 payload) ∈ m.Broadcast send room payload excludeConnID) ∧
    (∀ q ∈ m.Broadcast send room payload excludeConnID,
      q.1 ≠ excludeConnID ∧ ∃ h, (q.1, h) ∈ m.roomMembers room ∧ q.2 = send h payload) := by
  cases halt : alookup m.rooms room with
  | none =>
    constructor
    · intro p hp
      simp [RoomManager.roomMembers, halt] at hp
    · intro q hq
      simp [RoomManager.Broadcast, halt] at hq
  | some conns =>
    have hmem : m.roomMembers room = conns := by simp [RoomManager.roomMembers, halt]
    constructor
    · intro p hp hne
      rw [hmem] at hp
      simp only [RoomManager.Broadcast, halt, List.mem_filterMap]
      exact ⟨p, hp, by simp [hne]⟩
    · intro q hq
      simp only [RoomManager.Broadcast, halt, List.mem_filterMap] at hq
      rcases hq with ⟨a, ha, hfa⟩
      by_cases hae : a.1 = excludeConnID
      · simp [hae] at hfa
      · simp only [hae, if_false, Option.some.injEq] at hfa
        refine ⟨by rw [← hfa]; exact hae, a.2, ?_, by rw [← hfa]⟩
        rw [hmem, ← hfa]
        simpa using ha

/-- Witness of broadcast_best_effort_delivery: among members a, b, c with
a failing handle for a and c excluded, b still receives the payload. -/
theorem broadcast_best_effort_delivery_witness :
    ("b", true) ∈ (⟨[("r", [("a", 1), ("b", 2), ("c", 3)])], []⟩ : RoomManager Nat).Broadcast
      (fun h _ => decide (h ≠ 1)) "r" "x" "c" := by
  exact (broadcast_best_effort_delivery
    (⟨[("r", [("a", 1), ("b", 2), ("c", 3)])], []⟩ : RoomManager Nat)
    (fun h _ => decide (h ≠ 1)) "r" "x" "c").1 ("b", 2) (by decide) (by decide)

theorem keysNodup_foldl_regops (ops : List RegOp) (m : RoomManager Nat)
    (h : keysNodup m.connMeta) : keysNodup (ops.foldl applyRegOp m).connMeta := by
  induction ops generalizing m with
  | nil => exact h
  | cons op rest ih =>
    rw [List.foldl_cons]
    refine ih _ ?_
    cases op with
    | register connID userID username conn =>
      exact keysNodup_ainsert m.connMeta connID ⟨userID, username, conn⟩ h
    | unregister connID =>
      show keysNodup (applyRegOp m (.unregister connID)).connMeta
      cases halt : alookup m.connMeta connID with
      | none => simpa [applyRegOp, RoomManager.UnregisterConnection, halt] using h
      | some meta =>
        have : (applyRegOp m (.unregister connID)).connMeta = aerase m.connMeta connID := by
          simp [applyRegOp, RoomManager.UnregisterConnection, halt]
        rw [this]
        exact keysNodup_aerase m.connMeta connID h

theorem keysNodup_applyRegOps (ops : List RegOp) : keysNodup (applyRegOps ops).connMeta :=
  keysNodup_foldl_regops ops (initialManager Nat) List.nodup_nil

theorem countP_aerase_of_alookup {κ : Type u} {α : Type v} [DecidableEq κ]
    (l : List (κ × α)) (k : κ) (v : α) (p : κ × α → Bool)
    (hnd : keysNodup l) (hlk : alookup l k = some v) :
    l.countP p = (aerase l k).countP p + (if p (k, v) then 1 else 0) := by
  induction l with
  | nil => cases hlk
  | cons q rest ih =>
    obtain ⟨k0, v0⟩ := q
    simp only [keysNodup, List.map_cons, List.nodup_cons] at hnd
    rw [alookup_cons] at hlk
    by_cases h0 : k0 = k
    · rw [if_pos h0] at hlk
      have hv : v0 = v := by injection hlk
      subst hv
      subst h0
      rw [aerase_cons, if_pos rfl, aerase_of_not_mem_keys rest k0 hnd.1,
        List.countP_cons]
    · rw [if_neg h0] at hlk
      rw [aerase_cons, if_neg h0, List.countP_cons, List.countP_cons,
        ih hnd.2 hlk]
      omega

/-- Claim C1: over every sequence of RegisterConnection and
UnregisterConnection calls on the registry, IsUserOnline holds exactly
when some registered session belongs to the user, RegisterConnection
reports true exactly when the user had zero sessions before the call, and
UnregisterConnection reports true exactly when it removed the last session
of its user; unknown ids report false, so no edge fires between two
nonzero session counts. -/
theorem presence_edges_fire_only_on_zero_transitions (ops : List RegOp) (connID : String)
    (u : Int) (username : String) (conn : Nat) :
    (RoomManager.IsUserOnline (applyRegOps ops) u = true ↔
      ∃ p ∈ (applyRegOps ops).connMeta, p.2.userID = u) ∧
    (((applyRegOps ops).RegisterConnection connID u username conn).1 = true ↔
      (applyRegOps ops).CountUserConnections u = 0) ∧
    (∀ meta, alookup (applyRegOps ops).connMeta connID = some meta →
      (((applyRegOps ops).UnregisterConnection connID).1 = true ↔
        (applyRegOps ops).CountUserConnections meta.userID = 1)) ∧
    (alookup (applyRegOps ops).connMeta connID = none →
      ((applyRegOps ops).UnregisterConnection connID).1 = false) := by
  refine ⟨?_, ?_, ?_, ?_⟩
  · simp [RoomManager.IsUserOnline, List.any_eq_true]
  · rw [RoomManager.RegisterConnection, RoomManager.CountUserConnections]
    rw [Bool.not_eq_true', List.any_eq_false, List.countP_eq_zero]
  · intro meta hlk
    have hnd : keysNodup (applyRegOps ops).connMeta := keysNodup_applyRegOps ops
    have hcount := countP_aerase_of_alookup (applyRegOps ops).connMeta connID meta
      (fun p => decide (p.2.userID = meta.userID)) hnd hlk
    simp only [if_pos, decide_eq_true_eq] at hcount
    simp only [RoomManager.UnregisterConnection, hlk]
    rw [Bool.not_eq_true', List.any_eq_false]
    rw [RoomManager.CountUserConnections, hcount]
    have herased : (∀ p ∈ aerase (applyRegOps ops).connMeta connID,
        ¬(decide (p.2.userID = meta.userID)) = true) ↔
        (aerase (applyRegOps ops).connMeta connID).countP
          (fun p => decide (p.2.userID = meta.userID)) = 0 :=
      (List.countP_eq_zero).symm
    constructor
    · intro hall
      have := herased.1 (by intro p hp; simpa using hall p hp)
      omega
    · intro hone p hp
      have h0 : (aerase (applyRegOps ops).connMeta connID).countP
          (fun p => decide (p.2.userID = meta.userID)) = 0 := by omega
      have := (List.countP_eq_zero).1 h0 p hp
      simpa using this
  · intro h
    simp [RoomManager.UnregisterConnection, h]

/-- Witness of presence_edges_fire_only_on_zero_transitions: after one
register, unregistering that very session reports the user offline. -/
theorem presence_edges_witness :
    ((applyRegOps [RegOp.register "a" 5 "u" 0]).UnregisterConnection "a").1 = true :=
  ((presence_edges_fire_only_on_zero_transitions [RegOp.register "a" 5 "u" 0] "a" 5 "u" 0).2.2.1
    ⟨5, "u", 0⟩ (by decide)).mpr (by decide)

/-- Counterexample to claim C6 as stated: registry Join does not remove
the session from its previous room, so two raw Join calls leave session s
in the member sets of both r1 and r2. -/
theorem registry_join_keeps_previous_room :
    alookup (((initialManager Nat).Join "r1" "s" 0 1 "u").Join "r2" "s" 0 1 "u").rooms "r1" =
      some [("s", 0)] ∧
    alookup (((initialManager Nat).Join "r1" "s" 0 1 "u").Join "r2" "s" 0 1 "u").rooms "r2" =
      some [("s", 0)] := by
  decide

/-- Claim C6 as amended: the removal from the previous room is done by the
router, not by registry Join; the join handler leaves the current room
before joining, so it preserves the invariant that a connection is in no
member set while unjoined and only in its current room otherwise, and
afterwards the connection is a member of the target room. -/
theorem router_join_preserves_single_room {H : Type u} (m : RoomManager H)
    (cur msgRoom connID : String) (c : H) (userID : Int) (username : String)
    (hinv : routerRoomInv m connID cur) :
    routerRoomInv (handleJoinRegistry m cur msgRoom connID c userID username).1 connID
      (handleJoinRegistry m cur msgRoom connID c userID username).2 ∧
    (msgRoom ≠ "" →
      alookup ((handleJoinRegistry m cur msgRoom connID c userID username).1.roomMembers msgRoom)
        connID = some c) := by
  by_cases hm : msgRoom = ""
  · refine ⟨?_, fun h => absurd hm h⟩
    simpa [handleJoinRegistry, hm] using hinv
  · have hnone : ∀ rc ∈ (if cur ≠ "" then m.Leave cur connID else m).rooms,
        alookup rc.2 connID = none := by
      by_cases hc : cur = ""
      · intro rc hrc
        rw [if_neg (show ¬cur ≠ "" by simp [hc])] at hrc
        rcases Option.eq_none_or_eq_some (alookup rc.2 connID) with h | ⟨v, h⟩
        · exact h
        · exact absurd hc (hinv rc hrc (by rw [h]; rfl)).1
      · intro rc hrc
        rw [if_pos hc] at hrc
        rw [RoomManager.Leave] at hrc
        cases halt : alookup m.rooms cur with
        | none =>
          simp only [halt] at hrc
          rcases Option.eq_none_or_eq_some (alookup rc.2 connID) with h | ⟨v, h⟩
          · exact h
          · have hr1 := (hinv rc hrc (by rw [h]; rfl)).2
            have := alookup_isSome_of_mem m.rooms rc hrc
            rw [hr1, halt] at this
            cases this
        | some conns =>
          simp only [halt] at hrc
          by_cases he : (aerase conns connID).isEmpty
          · simp only [he, if_true] at hrc
            have hmem := (mem_aerase m.rooms cur rc).1 hrc
            rcases Option.eq_none_or_eq_some (alookup rc.2 connID) with h | ⟨v, h⟩
            · exact h
            · exact absurd (hinv rc hmem.1 (by rw [h]; rfl)).2 hmem.2
          · simp only [he, if_false] at hrc
            rcases List.mem_cons.1 hrc with hrc | hrc
            · rw [hrc]
              exact alookup_aerase_self conns connID
            · have hmem := (mem_aerase m.rooms cur rc).1 hrc
              rcases Option.eq_none_or_eq_some (alookup rc.2 connID) with h | ⟨v, h⟩
              · exact h
              · exact absurd (hinv rc hmem.1 (by rw [h]; rfl)).2 hmem.2
    constructor
    · intro rc hrc hsome
      have hpair : (handleJoinRegistry m cur msgRoom connID c userID username).2 = msgRoom := by
        simp [handleJoinRegistry, hm]
      rw [hpair]
      have hrooms : (handleJoinRegistry m cur msgRoom connID c userID username).1.rooms =
          ainsert (if cur ≠ "" then m.Leave cur connID else m).rooms msgRoom
            (ainsert ((alookup (if cur ≠ "" then m.Leave cur connID else m).rooms
              msgRoom).getD []) connID c) := by
        simp [handleJoinRegistry, hm, RoomManager.Join]
      rw [hrooms, ainsert] at hrc
      rcases List.mem_cons.1 hrc with hrc | hrc
      · exact ⟨hm, by rw [hrc]⟩
      · have hmem := (mem_aerase _ msgRoom rc).1 hrc
        rw [hnone rc hmem.1] at hsome
        cases hsome
    · intro _
      have hrooms : (handleJoinRegistry m cur msgRoom connID c userID username).1.rooms =
          ainsert (if cur ≠ "" then m.Leave cur connID else m).rooms msgRoom
            (ainsert ((alookup (if cur ≠ "" then m.Leave cur connID else m).rooms
              msgRoom).getD []) connID c) := by
        simp [handleJoinRegistry, hm, RoomManager.Join]
      rw [RoomManager.roomMembers, hrooms, alookup_ainsert_self]
      simp

/-- Witness of router_join_preserves_single_room: a connection viewing r1
that joins r2 through the router ends up a member of r2. -/
theorem router_join_preserves_single_room_witness :
    alookup ((handleJoinRegistry ((initialManager Nat).Join "r1" "s" 7 1 "u") "r1" "r2" "s" 7 1
      "u").1.roomMembers "r2") "s" = some 7 :=
  (router_join_preserves_single_room ((initialManager Nat).Join "r1" "s" 7 1 "u") "r1" "r2" "s" 7
    1 "u" (by
      intro rc hrc hsome
      simp only [initialManager, RoomManager.Join, ainsert, aerase_nil, alookup_nil,
        List.mem_singleton] at hrc
      exact ⟨by decide, by rw [hrc]⟩)).2 (by decide)

/-- Counterexample to claim C3 as stated: for a text message the hint
delivered to an online non-viewing participant carries the message body
under the text key and has no type field. -/
theorem text_hint_carries_body_and_lacks_type :
    notifyNewMessage ((initialManager Nat).RegisterConnection "c2" 2 "bob" 7).2 (some [1, 2])
        "r" 1 "alice" "hi" 100 =
      [(2, newMessageNotification "r" 1 "alice" "hi" 100)] ∧
    alookup (newMessageNotification "r" 1 "alice" "hi" 100) "text" = some (.str "hi") ∧
    alookup (newMessageNotification "r" 1 "alice" "hi" 100) "type" = none := by
  decide

/-- Claim C3 as amended: the hint goes exactly to the participants other
than the sender who are online and not currently in the room; the voice
hint carries type voice and no body, while the text hint carries the
message text and no type field. -/
theorem new_message_hint_recipients_and_fields {H : Type u} (m : RoomManager H)
    (ps : List Int) (roomID : String) (senderID : Int) (senderUsername msgText : String)
    (ts : Int) :
    (∀ pid ∈ ps, pid ≠ senderID → m.IsUserOnline pid = true →
      m.IsUserInRoom pid roomID = false →
      (pid, newMessageNotification roomID senderID senderUsername msgText ts) ∈
        notifyNewMessage m (some ps) roomID senderID senderUsername msgText ts ∧
      (pid, newVoiceMessageNotification roomID senderID senderUsername ts) ∈
        notifyNewVoiceMessage m (some ps) roomID senderID senderUsername ts) ∧
    (∀ pid payload,
      (pid, payload) ∈ notifyNewMessage m (some ps) roomID senderID senderUsername msgText ts →
      pid ∈ ps ∧ pid ≠ senderID ∧ m.IsUserOnline pid = true ∧
        m.IsUserInRoom pid roomID = false ∧
        payload = newMessageNotification roomID senderID senderUsername msgText ts) ∧
    (∀ pid payload,
      (pid, payload) ∈ notifyNewVoiceMessage m (some ps) roomID senderID senderUsername ts →
      pid ∈ ps ∧ pid ≠ senderID ∧ m.IsUserOnline pid = true ∧
        m.IsUserInRoom pid roomID = false ∧
        payload = newVoiceMessageNotification roomID senderID senderUsername ts) ∧
    alookup (newVoiceMessageNotification roomID senderID senderUsername ts) "type" =
      some (.str "voice") ∧
    alookup (newVoiceMessageNotification roomID senderID senderUsername ts) "text" = none ∧
    alookup (newMessageNotification roomID senderID senderUsername msgText ts) "text" =
      some (.str msgText) := by
  refine ⟨?_, ?_, ?_, ?_, ?_, ?_⟩
  · intro pid hmem hne hon hnin
    constructor
    · simp only [notifyNewMessage, List.mem_map]
      exact ⟨pid, List.mem_filter.2 ⟨hmem, by simp [hne, hon, hnin]⟩, rfl⟩
    · simp only [notifyNewVoiceMessage, List.mem_map]
      exact ⟨pid, List.mem_filter.2 ⟨hmem, by simp [hne, hon, hnin]⟩, rfl⟩
  · intro pid payload hmem
    simp only [notifyNewMessage, List.mem_map] at hmem
    rcases hmem with ⟨q, hq, heq⟩
    have hq' := List.mem_filter.1 hq
    have hqid : q = pid := congrArg Prod.fst heq
    subst hqid
    have hcond := hq'.2
    simp only [Bool.and_eq_true, Bool.not_eq_true', decide_eq_true_eq] at hcond
    exact ⟨hq'.1, hcond.1.1, hcond.1.2, hcond.2, (congrArg Prod.snd heq).symm⟩
  · intro pid payload hmem
    simp only [notifyNewVoiceMessage, List.mem_map] at hmem
    rcases hmem with ⟨q, hq, heq⟩
    have hq' := List.mem_filter.1 hq
    have hqid : q = pid := congrArg Prod.fst heq
    subst hqid
    have hcond := hq'.2
    simp only [Bool.and_eq_true, Bool.not_eq_true', decide_eq_true_eq] at hcond
    exact ⟨hq'.1, hcond.1.1, hcond.1.2, hcond.2, (congrArg Prod.snd heq).symm⟩
  · simp [newVoiceMessageNotification]
  · simp [newVoiceMessageNotification]
  · simp [newMessageNotification]

/-- Witness of new_message_hint_recipients_and_fields: online non-viewing
participant 2 receives the text hint. -/
theorem new_message_hint_recipients_and_fields_witness :
    (2, newMessageNotification "r" 1 "alice" "hi" 100) ∈
      notifyNewMessage ((initialManager Nat).RegisterConnection "c2" 2 "bob" 7).2 (some [1, 2])
        "r" 1 "alice" "hi" 100 :=
  ((new_message_hint_recipients_and_fields
    ((initialManager Nat).RegisterConnection "c2" 2 "bob" 7).2 [1, 2] "r" 1 "alice" "hi"
    100).1 2 (by decide) (by decide) (by decide) (by decide)).1

/-- Claim C4, the divergence in the code: HandleMessage replaces the
client timestamp of a seen frame with the server clock before dispatch, so
handleSeen's seconds heuristic compares the server time, not the client
value; a message created after the client threshold but before receipt is
marked seen although the claim says it must not be. -/
theorem seen_threshold_is_server_clock_not_client :
    (overrideAuthFields 1760000000000 "alice"
      ⟨"seen", 0, "r", "", "", 1732789012, "alice", 0⟩).timestamp = 1760000000000 ∧
    (handleSeen (fun _ _ _ => some 0) 1 "alice" "r"
        (overrideAuthFields 1760000000000 "alice"
          ⟨"seen", 0, "r", "", "", 1732789012, "alice", 0⟩)).markCall =
      some ("r", 1, 1760000000000) ∧
    (handleSeen (fun _ _ _ => some 0) 1 "alice" "r"
        (overrideAuthFields 1760000000000 "alice"
          ⟨"seen", 0, "r", "", "", 1732789012, "alice", 0⟩)).markCall ≠
      some ("r", 1, 1732789012 * 1000) ∧
    (MarkMessagesSeen [⟨9, "r", 2, false, 1740000000000⟩] "r" 1 1760000000000).1 =
      [⟨9, "r", 2, true, 1740000000000⟩] ∧
    (MarkMessagesSeen [⟨9, "r", 2, false, 1740000000000⟩] "r" 1 (1732789012 * 1000)).1 =
      [⟨9, "r", 2, false, 1740000000000⟩] := by
  decide

end ChatBackend
